import Mathlib

/-!
Verification development for the go-synapse HAProxy reconciler
(`src/synapse/synapse_haproxy.go`) and the zookeeper discovery watcher.

The Go functions are shallowly embedded as pure Lean functions; effectful
calls (file writes, the reload subprocess, the admin socket) are modelled by
an explicit event trace plus an oracle giving the outcome of each I/O call.
Go `int` lengths and ports are modelled as `Nat` (they are non-negative in
every reachable state), `strconv.Itoa` as `toString`.
-/

set_option autoImplicit false

namespace GoSynapse

/-- One HAProxy server entry, mirroring the Go struct `HAProxyBackendServer`
(fields used by `synapse_haproxy.go`: Name, Host, Port, Disabled, Weight,
HAProxyServerOptions; the struct declaration itself is not under src/, its
fields are taken from their uses in `getAllBackends` and
`SaveConfiguration`). -/
structure HAProxyBackendServer where
  Name : String
  Host : String
  Port : Nat
  Disabled : Bool
  Weight : Nat
  HAProxyServerOptions : String
deriving DecidableEq, Repr

/-- One HAProxy backend, mirroring the Go struct `HAProxyBackend`
(fields from their uses in `getAllBackends` and `SaveConfiguration`). -/
structure HAProxyBackend where
  Name : String
  Port : Nat
  ServerOptions : String
  Listen : List String
  Servers : List HAProxyBackendServer
deriving DecidableEq, Repr

/-- `HAProxyBackendSlice` of the Go code. -/
abbrev HAProxyBackendSlice := List HAProxyBackend

/-- The fields of `SynapseHAProxyConfiguration`
(`synapse_configuration.go`) consumed by `synapse_haproxy.go`. The
`reload_command` argv and the file paths do not influence the control flow
modelled here and are omitted. -/
structure SynapseHAProxyConfiguration where
  DoWrites : Bool
  DoReloads : Bool
  DoSocket : Bool
  Global : List String
  Defaults : List String
deriving DecidableEq, Repr

/-- A default-server entry of a service
(`SynapseServiceServerConfiguration` in `synapse_configuration.go`). -/
structure SynapseServiceServerConfiguration where
  Name : String
  Host : String
  Port : Nat
deriving DecidableEq, Repr

/-- One host returned by `service.Discovery.GetDiscoveredHosts()`
(fields from their uses in `getAllBackends`; the discovery types are not
under src/). -/
structure DiscoveredHost where
  Name : String
  Host : String
  Port : Nat
  Maintenance : Bool
  Weight : Nat
  HAProxyServerOptions : String
deriving DecidableEq, Repr

/-- The slice element type of `HAProxy.Services` as consumed by
`getAllBackends`. `DiscoveredHosts` models the point-in-time result of
`service.Discovery.GetDiscoveredHosts()` at the tick under study. -/
structure SynapseService where
  Name : String
  HAPPort : Nat
  HAPServerOptions : String
  HAPListen : List String
  DefaultServers : List SynapseServiceServerConfiguration
  DiscoveredHosts : List DiscoveredHost
deriving DecidableEq, Repr

/-! ## The Differ: `isBackendsModified` -/

/-- The per-server comparison of `isBackendsModified` (line 52 of
`synapse_haproxy.go`): `server.Name == old.Name && server.Host == old.Host
&& server.Port == old.Port`. -/
def serverAligned (server old : HAProxyBackendServer) : Bool :=
  server.Name == old.Name && server.Host == old.Host && server.Port == old.Port

/-- The body of the inner `for i, server := range backend.Servers` loop of
`isBackendsModified`, lines 51-67, acting on the accumulator
`(isModified, hasToRestart, socketCommands)`; the pair holds the candidate
server and the server of the applied backend at the same index. -/
def serverStep (backendName : String) (acc : Bool × Bool × List String)
    (p : HAProxyBackendServer × HAProxyBackendServer) : Bool × Bool × List String :=
  let server := p.1
  let old := p.2
  if serverAligned server old then
    if server.Disabled != old.Disabled then
      if server.Disabled then
        (true, acc.2.1, acc.2.2 ++ ["disable server " ++ backendName ++ "/" ++ server.Name])
      else
        (true, acc.2.1, acc.2.2 ++ ["enable server " ++ backendName ++ "/" ++ server.Name])
    else acc
  else (true, true, acc.2.2)

/-- The body of the outer `for index, backend := range newBackends` loop of
`isBackendsModified`, lines 46-69; the pair holds the candidate backend and
the applied backend at the same index. -/
def backendStep (acc : Bool × Bool × List String)
    (p : HAProxyBackend × HAProxyBackend) : Bool × Bool × List String :=
  let backend := p.1
  let old := p.2
  if backend.Servers.length != old.Servers.length then
    (true, true, acc.2.2)
  else
    (backend.Servers.zip old.Servers).foldl (serverStep backend.Name) acc

/-- `HAProxy.isBackendsModified` (lines 36-76). `numServices` is
`len(h.Services)`, `curBackends` is `h.Backends`, `newBackends` the
candidate. Returns `(isModified, hasToRestart, socketCommands, err)`. -/
def isBackendsModified (numServices : Nat) (curBackends newBackends : HAProxyBackendSlice) :
    Bool × Bool × List String × Option String :=
  if newBackends.length != numServices then
    (false, false, [],
      some ("[" ++ toString newBackends.length ++ "] Backends to watch != ["
        ++ toString numServices ++ "] Services"))
  else if newBackends.length == curBackends.length then
    match (newBackends.zip curBackends).foldl backendStep (false, false, []) with
    | (m, r, cs) => (m, r, cs, none)
  else
    (true, true, [], none)

/-! ## The Assembler: `getAllBackends` -/

/-- Insertion of one element into a list sorted by `le`. -/
def insertLE {α : Type} (le : α → α → Bool) (a : α) : List α → List α
  | [] => [a]
  | b :: bs => if le a b then a :: b :: bs else b :: insertLE le a bs

/-- Insertion sort by `le`; stands in for Go `sort.Sort`, which is a
deterministic function of its input slice and comparator. -/
def sortLE {α : Type} (le : α → α → Bool) : List α → List α
  | [] => []
  | a :: rest => insertLE le a (sortLE le rest)

/-- Modelled from the spec: the `Less` method of the server slice is not
under src/; section 3 ordering rule: "servers within a backend by
(name, host, port)". -/
def serverLE (a b : HAProxyBackendServer) : Bool :=
  if a.Name != b.Name then decide (a.Name < b.Name)
  else if a.Host != b.Host then decide (a.Host < b.Host)
  else a.Port ≤ b.Port

/-- Modelled from the spec: the `Less` method of `HAProxyBackendSlice` is
not under src/; section 3 ordering rule: "backends are sorted by name". -/
def backendLE (a b : HAProxyBackend) : Bool :=
  decide (a.Name < b.Name) || a.Name == b.Name

/-- `HAProxy.getAllBackends` (lines 78-113): builds one backend per
service, merging default servers (Disabled=false, Weight=0, no extra
options) with the discovered hosts, then sorts servers and backends. -/
def getAllBackends (services : List SynapseService) : HAProxyBackendSlice :=
  sortLE backendLE (services.map fun service =>
    { Name := service.Name
      Port := service.HAPPort
      ServerOptions := service.HAPServerOptions
      Listen := service.HAPListen
      Servers := sortLE serverLE (
        (service.DefaultServers.map fun server =>
          { Name := server.Name, Host := server.Host, Port := server.Port,
            Disabled := false, Weight := 0, HAProxyServerOptions := "" })
        ++ service.DiscoveredHosts.map fun server =>
          { Name := server.Name, Host := server.Host, Port := server.Port,
            Disabled := server.Maintenance, Weight := server.Weight,
            HAProxyServerOptions := server.HAProxyServerOptions }) })

/-! ## Config-file serialization: `SaveConfiguration` -/

/-- One `server` line of the generated config (lines 188-201). -/
def serverConfigLine (serverTemplateOptions : String) (server : HAProxyBackendServer) : String :=
  "  server " ++ server.Name ++ " " ++ server.Host ++ ":" ++ toString server.Port ++ " "
    ++ serverTemplateOptions
    ++ (if server.HAProxyServerOptions != "" then " " ++ server.HAProxyServerOptions else "")
    ++ (if server.Disabled then " disabled" else "")
    ++ "\n"

/-- One backend section of the generated config (lines 182-203). -/
def backendConfigSection (backend : HAProxyBackend) : String :=
  "backend " ++ backend.Name ++ "\n"
    ++ "  bind " ++ toString backend.Port ++ "\n"
    ++ String.join (backend.Listen.map fun line => "  " ++ line ++ "\n")
    ++ String.join (backend.Servers.map (serverConfigLine backend.ServerOptions))
    ++ "\n"

/-- The exact byte content assembled by `HAProxy.SaveConfiguration`
(lines 164-203): header banner, global section, defaults section, one
section per backend. -/
def configFileContent (conf : SynapseHAProxyConfiguration) (backends : HAProxyBackendSlice) :
    String :=
  "#\n"
    ++ "# HAProxy Configuration File Generated by GO-Synapse\n"
    ++ "# If you modify it, be aware that you modifications will be overriden soon\n"
    ++ "#\n\n"
    ++ "global\n"
    ++ String.join (conf.Global.map fun line => "  " ++ line ++ "\n")
    ++ "\ndefaults\n"
    ++ String.join (conf.Defaults.map fun line => "  " ++ line ++ "\n")
    ++ "\n"
    ++ String.join (backends.map backendConfigSection)

/-! ## State store: `LoadState` -/

/-- `HAProxy.LoadState` (lines 131-160), with the filesystem abstracted:
`statResult` is the mtime (in milliseconds) when `os.Stat` succeeds,
`now` the current time in milliseconds, `fileContent` the parsed JSON when
both read and unmarshal succeed. `curBackends` is `h.Backends` before the
call (nil at startup). Returns the resulting `h.Backends` and the error.
Mirrors the source: expiry test is `fileModTime + 2000ms` strictly before
`now`; an expired or missing file leaves the backends untouched and
returns nil. -/
def LoadState (curBackends : HAProxyBackendSlice) (statResult : Option Nat) (now : Nat)
    (fileContent : Option HAProxyBackendSlice) : HAProxyBackendSlice × Option String :=
  match statResult with
  | some fileModTime =>
    if fileModTime + 2000 < now then
      (curBackends, none)
    else
      match fileContent with
      | some parsed => (parsed, none)
      | none => (curBackends, some "read or unmarshal failed")
  | none => (curBackends, none)

/-! ## Effector side effects as an event trace

`Run` performs its side effects in a strict sequence inside one tick; the
trace records each attempted effect in program order. -/

/-- One attempted side effect of a tick of `HAProxy.Run`. -/
inductive Ev where
  /-- `h.SaveState()` marshalled the snapshot and attempted the state-file
  write (lines 289-291; the result is ignored by `Run`). -/
  | saveState (snapshot : HAProxyBackendSlice)
  /-- `SaveConfiguration` attempted to write the config file with the given
  content (line 204). -/
  | writeConfig (content : String)
  /-- `reloadHAProxyDaemon` ran the reload command (line 220). -/
  | execReload
  /-- `changeBackendsStateBySocket` dialled the admin socket (line 234). -/
  | dialSocket
  /-- one admin-socket command write was attempted (line 240). -/
  | sendCommand (c : String)
  /-- the admin socket was closed. -/
  | closeSocket
deriving DecidableEq, Repr

/-- Outcome of the I/O of one admin-socket command: the `conn.Write` fails,
the `conn.Read` fails, or the read returns the given response string. -/
inductive CmdOutcome where
  | writeFail
  | readFail
  | response (s : String)
deriving DecidableEq, Repr

/-- The per-command loop of `changeBackendsStateBySocket` (lines 239-259).
One outcome is consumed per command; an exhausted oracle behaves as a
failing read. Faithful to the source's variable shadowing: at line 247
`n, err := conn.Read(buf[:])` declares a fresh `err` inside the loop body,
so the `return err` of the response-mismatch branch (line 257) returns that
inner error, which is nil there — the mismatch is logged and the connection
closed, but NO error reaches the caller. -/
def socketLoop : List String → List CmdOutcome → List Ev × Option String
  | [], _ => ([Ev.closeSocket], none)
  | c :: cs, outs =>
    match outs with
    | CmdOutcome.writeFail :: _ => ([Ev.sendCommand c, Ev.closeSocket], some "socket write failed")
    | CmdOutcome.readFail :: _ => ([Ev.sendCommand c, Ev.closeSocket], some "socket read failed")
    | CmdOutcome.response s :: os =>
      if s == "\n" then
        match socketLoop cs os with
        | (evs, r) => (Ev.sendCommand c :: evs, r)
      else
        ([Ev.sendCommand c, Ev.closeSocket], none)
    | [] => ([Ev.sendCommand c, Ev.closeSocket], some "socket read failed")

/-- `HAProxy.changeBackendsStateBySocket` (lines 231-265): no effect and a
nil error when `do_socket` is false; an error when the dial fails; otherwise
the command loop. -/
def changeBackendsStateBySocket (doSocket dialOk : Bool) (commands : List String)
    (outcomes : List CmdOutcome) : List Ev × Option String :=
  if doSocket then
    if dialOk then
      match socketLoop commands outcomes with
      | (evs, r) => (Ev.dialSocket :: evs, r)
    else ([Ev.dialSocket], some "unable to open socket")
  else ([], none)

/-- `HAProxy.reloadHAProxyDaemon` (lines 215-229): runs the reload command
only when `do_reloads` is true; `reloadOk` is the oracle for the command's
exit status. -/
def reloadHAProxyDaemon (doReloads reloadOk : Bool) : List Ev × Option String :=
  if doReloads then
    (if reloadOk then ([Ev.execReload], none) else ([Ev.execReload], some "reload failed"))
  else ([], none)

/-- `HAProxy.SaveConfiguration` (lines 162-213) as trace plus error: when
`do_writes` is true the computed content is written (the write outcome given
by `writeOk`), otherwise nothing happens and nil is returned. -/
def SaveConfigurationRun (conf : SynapseHAProxyConfiguration) (backends : HAProxyBackendSlice)
    (writeOk : Bool) : List Ev × Option String :=
  if conf.DoWrites then
    (if writeOk then ([Ev.writeConfig (configFileContent conf backends)], none)
     else ([Ev.writeConfig (configFileContent conf backends)], some "config write failed"))
  else ([], none)

/-- `HAProxy.SaveState` (lines 116-128) as a trace event: the snapshot is
marshalled and the state-file write attempted; `Run` ignores the result. -/
def SaveStateRun (snapshot : HAProxyBackendSlice) : List Ev :=
  [Ev.saveState snapshot]

/-- Oracle for the outcomes of the I/O calls one tick can make. -/
structure TickOracle where
  configWriteOk : Bool
  reloadOk : Bool
  dialOk : Bool
  cmdOutcomes : List CmdOutcome
deriving Repr

/-- The body of one iteration of the loop of `HAProxy.Run` (lines 279-317),
with the candidate snapshot passed explicitly (`Run` computes it by
`getAllBackends`, see `runTick`). Returns the new `h.Backends` and the
trace of attempted side effects, in program order:

- differ error: log only, keep state, no effects (lines 281-284);
- not modified: nothing (lines 314-316);
- modified: `h.Backends = backends` at once (line 288), state file saved
  when a state file is configured (289-291), then the config write; on
  write failure nothing further happens (294-295); otherwise reload when
  `hasToRestart`, reload when `do_reloads && !do_socket`, else the socket
  pass with a reload fallback on a non-nil socket error (297-312). -/
def runTickWith (conf : SynapseHAProxyConfiguration) (numServices : Nat) (StateFile : String)
    (curBackends candidate : HAProxyBackendSlice) (o : TickOracle) :
    HAProxyBackendSlice × List Ev :=
  match isBackendsModified numServices curBackends candidate with
  | (isModified, hasToRestart, socketCommands, err) =>
    match err with
    | some _ => (curBackends, [])
    | none =>
      if isModified then
        let stEvs := if StateFile != "" then SaveStateRun candidate else []
        match SaveConfigurationRun conf candidate o.configWriteOk with
        | (wEvs, some _) => (candidate, stEvs ++ wEvs)
        | (wEvs, none) =>
          if hasToRestart then
            (candidate, stEvs ++ wEvs ++ (reloadHAProxyDaemon conf.DoReloads o.reloadOk).1)
          else if conf.DoReloads && !conf.DoSocket then
            (candidate, stEvs ++ wEvs ++ (reloadHAProxyDaemon conf.DoReloads o.reloadOk).1)
          else
            match changeBackendsStateBySocket conf.DoSocket o.dialOk socketCommands
                o.cmdOutcomes with
            | (sEvs, some _) =>
              (candidate,
                stEvs ++ wEvs ++ sEvs ++ (reloadHAProxyDaemon conf.DoReloads o.reloadOk).1)
            | (sEvs, none) => (candidate, stEvs ++ wEvs ++ sEvs)
      else (curBackends, [])

/-- One full tick of `HAProxy.Run`: the candidate snapshot is computed by
`getAllBackends` from the services (line 279), then handled by the loop
body. -/
def runTick (conf : SynapseHAProxyConfiguration) (services : List SynapseService)
    (StateFile : String) (curBackends : HAProxyBackendSlice) (o : TickOracle) :
    HAProxyBackendSlice × List Ev :=
  runTickWith conf services.length StateFile curBackends (getAllBackends services) o

/-! ## The zookeeper watcher (`WatcherZookeeper`, unnamed part_002)

The watcher's `reports` field is a node-path-keyed map of raw report
contents with a change signal; its implementation (`reportMap`, `NewNodes`)
is not under src/, so it is modelled from the spec and from its uses as an
association list. What matters below is only which operations each branch
of `Watch`/`watchRoot`/`watchNode` invokes on it. -/

/-- State of one `WatcherZookeeper`: the report map and the set of nodes
with a live `watchNode` task (plus whether a `watchRoot` task is live). -/
structure WatcherZookeeperState where
  reports : List (String × String)
  childWatchersLive : List String
  rootWatchLive : Bool
deriving DecidableEq, Repr

/-- The `StateExpired` / `StateDisconnected` branch of
`WatcherZookeeper.Watch` (part_002 lines 69-75): `close(watcherStop)` then
`watcherStopWaiter.Wait()` cancels and drains the `watchRoot` and every
`watchNode` task, then fresh stop channel and wait group are installed.
On the stop path `watchRoot` and `watchNode` simply `return` (lines 97-99,
126-127, 157-158): none of them touches `w.reports`, so the report map is
carried over unchanged. -/
def onSessionLoss (w : WatcherZookeeperState) : WatcherZookeeperState :=
  { w with childWatchersLive := [], rootWatchLive := false }

/-- The `StateHasSession` branch of `Watch` (lines 67-68):
`go w.watchRoot(...)`. -/
def onSessionAcquired (w : WatcherZookeeperState) : WatcherZookeeperState :=
  { w with rootWatchLive := true }

/-- The `<-w.reports.changed` branch of `Watch` (lines 59-62): the values
of the report map are sent as the next `ServiceReport` event. -/
def emittedReports (w : WatcherZookeeperState) : List String :=
  w.reports.map Prod.snd

/-! ## Spec-level predicates used to state the claims -/

/-- Positionwise alignment of two server lists on (name, host, port). -/
def serversAligned : List HAProxyBackendServer → List HAProxyBackendServer → Bool
  | [], [] => true
  | s :: ss, t :: ts => serverAligned s t && serversAligned ss ts
  | _, _ => false

/-- Positionwise alignment of two snapshots: equal backend count and, per
backend, servers aligned on (name, host, port) in identical order. -/
def backendsAligned : List HAProxyBackend → List HAProxyBackend → Bool
  | [], [] => true
  | b :: bs, a :: rest => serversAligned b.Servers a.Servers && backendsAligned bs rest
  | _, _ => false

/-- Whether some aligned position differs in the `Disabled` flag. -/
def anyDisabledDiffServers : List HAProxyBackendServer → List HAProxyBackendServer → Bool
  | s :: ss, t :: ts => (s.Disabled != t.Disabled) || anyDisabledDiffServers ss ts
  | _, _ => false

/-- The expected admin-socket directives for one backend: one command per
position whose `Disabled` flag differs, in server order. -/
def serverDiffCommands (backendName : String) :
    List HAProxyBackendServer → List HAProxyBackendServer → List String
  | s :: ss, t :: ts =>
    if s.Disabled != t.Disabled then
      ((if s.Disabled then "disable server " else "enable server ")
        ++ backendName ++ "/" ++ s.Name) :: serverDiffCommands backendName ss ts
    else serverDiffCommands backendName ss ts
  | _, _ => []

/-- Whether any backend has a server whose `Disabled` flag differs. -/
def anyDisabledDiff : List HAProxyBackend → List HAProxyBackend → Bool
  | b :: bs, a :: rest =>
    anyDisabledDiffServers b.Servers a.Servers || anyDisabledDiff bs rest
  | _, _ => false

/-- The expected admin-socket directives over a whole snapshot pair, in
backend order. -/
def allSocketCommands : List HAProxyBackend → List HAProxyBackend → List String
  | b :: bs, a :: rest =>
    serverDiffCommands b.Name b.Servers a.Servers ++ allSocketCommands bs rest
  | _, _ => []

/-- Agreement of two servers on everything except `Weight`. -/
def serverWeightEquiv (s t : HAProxyBackendServer) : Bool :=
  s.Name == t.Name && s.Host == t.Host && s.Port == t.Port
    && s.Disabled == t.Disabled && s.HAProxyServerOptions == t.HAProxyServerOptions

/-- Positionwise `serverWeightEquiv`. -/
def serversWeightEquiv : List HAProxyBackendServer → List HAProxyBackendServer → Bool
  | [], [] => true
  | s :: ss, t :: ts => serverWeightEquiv s t && serversWeightEquiv ss ts
  | _, _ => false

/-- Agreement of two backends on everything except server weights. -/
def backendWeightEquiv (b a : HAProxyBackend) : Bool :=
  b.Name == a.Name && b.Port == a.Port && b.ServerOptions == a.ServerOptions
    && b.Listen == a.Listen && serversWeightEquiv b.Servers a.Servers

/-- Positionwise `backendWeightEquiv`. -/
def backendsWeightEquiv : List HAProxyBackend → List HAProxyBackend → Bool
  | [], [] => true
  | b :: bs, a :: rest => backendWeightEquiv b a && backendsWeightEquiv bs rest
  | _, _ => false

/-! ## Concrete fixtures -/

/-- Fixture server named `a` at 10.0.0.1:80 with the given disabled flag. -/
def exampleServer (d : Bool) : HAProxyBackendServer :=
  { Name := "a", Host := "10.0.0.1", Port := 80, Disabled := d, Weight := 0,
    HAProxyServerOptions := "" }

/-- Fixture backend `web` holding `exampleServer d`. -/
def exampleBackend (d : Bool) : HAProxyBackend :=
  { Name := "web", Port := 8080, ServerOptions := "check", Listen := [],
    Servers := [exampleServer d] }

/-- Fixture proxy configuration with all three gate flags enabled. -/
def exampleConf : SynapseHAProxyConfiguration :=
  { DoWrites := true, DoReloads := true, DoSocket := true,
    Global := ["g1"], Defaults := ["d1"] }

/-- Fixture service from which `getAllBackends` rebuilds `exampleBackend`. -/
def exampleService : SynapseService :=
  { Name := "web", HAPPort := 8080, HAPServerOptions := "check", HAPListen := [],
    DefaultServers := [{ Name := "a", Host := "10.0.0.1", Port := 80 }],
    DiscoveredHosts := [] }

/-- Fixture zookeeper watcher state with one reported child node. -/
def exampleZkState : WatcherZookeeperState :=
  { reports := [("/services/web/node1", "report1")],
    childWatchersLive := ["/services/web/node1"],
    rootWatchLive := true }

/-- Fixture backend like `exampleBackend false` but with server weight `w`. -/
def exampleBackendWeight (w : Nat) : HAProxyBackend :=
  { Name := "web", Port := 8080, ServerOptions := "check", Listen := [],
    Servers := [{ Name := "a", Host := "10.0.0.1", Port := 80, Disabled := false,
                  Weight := w, HAProxyServerOptions := "" }] }

/-! ## Helper lemmas -/

theorem serversAligned_length : ∀ svs tvs : List HAProxyBackendServer,
    serversAligned svs tvs = true → svs.length = tvs.length := by
  intro svs
  induction svs with
  | nil =>
    intro tvs h
    cases tvs with
    | nil => rfl
    | cons t ts => simp [serversAligned] at h
  | cons s ss ih =>
    intro tvs h
    cases tvs with
    | nil => simp [serversAligned] at h
    | cons t ts =>
      simp only [serversAligned, Bool.and_eq_true] at h
      simp [ih ts h.2]

theorem backendsAligned_length : ∀ cand cur : List HAProxyBackend,
    backendsAligned cand cur = true → cand.length = cur.length := by
  intro cand
  induction cand with
  | nil =>
    intro cur h
    cases cur with
    | nil => rfl
    | cons a rest => simp [backendsAligned] at h
  | cons b bs ih =>
    intro cur h
    cases cur with
    | nil => simp [backendsAligned] at h
    | cons a rest =>
      simp only [backendsAligned, Bool.and_eq_true] at h
      simp [ih rest h.2]

theorem serversFold_aligned (bn : String) : ∀ svs tvs : List HAProxyBackendServer,
    serversAligned svs tvs = true → ∀ m r cs,
    (svs.zip tvs).foldl (serverStep bn) (m, r, cs) =
      (m || anyDisabledDiffServers svs tvs, r, cs ++ serverDiffCommands bn svs tvs) := by
  intro svs
  induction svs with
  | nil =>
    intro tvs h m r cs
    cases tvs with
    | nil => simp [anyDisabledDiffServers, serverDiffCommands]
    | cons t ts => simp [serversAligned] at h
  | cons s ss ih =>
    intro tvs h m r cs
    cases tvs with
    | nil => simp [serversAligned] at h
    | cons t ts =>
      simp only [serversAligned, Bool.and_eq_true] at h
      obtain ⟨h1, h2⟩ := h
      simp only [List.zip_cons_cons, List.foldl_cons]
      by_cases hd : (s.Disabled != t.Disabled) = true
      · have hstep : serverStep bn (m, r, cs) (s, t) =
            (true, r, cs ++ [(if s.Disabled then "disable server " else "enable server ")
              ++ bn ++ "/" ++ s.Name]) := by
          simp only [serverStep, h1, if_pos rfl, hd]
          cases hs : s.Disabled <;> simp
        rw [hstep, ih ts h2]
        simp [anyDisabledDiffServers, serverDiffCommands, hd]
      · have hstep : serverStep bn (m, r, cs) (s, t) = (m, r, cs) := by
          simp only [serverStep, h1]
          simp at hd
          simp [hd]
        rw [hstep, ih ts h2]
        simp only [Bool.not_eq_true] at hd
        simp [anyDisabledDiffServers, serverDiffCommands, hd]

theorem backendsFold_aligned : ∀ cand cur : List HAProxyBackend,
    backendsAligned cand cur = true → ∀ m r cs,
    (cand.zip cur).foldl backendStep (m, r, cs) =
      (m || anyDisabledDiff cand cur, r, cs ++ allSocketCommands cand cur) := by
  intro cand
  induction cand with
  | nil =>
    intro cur h m r cs
    cases cur with
    | nil => simp [anyDisabledDiff, allSocketCommands]
    | cons a rest => simp [backendsAligned] at h
  | cons b bs ih =>
    intro cur h m r cs
    cases cur with
    | nil => simp [backendsAligned] at h
    | cons a rest =>
      simp only [backendsAligned, Bool.and_eq_true] at h
      obtain ⟨h1, h2⟩ := h
      have hlen := serversAligned_length _ _ h1
      simp only [List.zip_cons_cons, List.foldl_cons]
      have hstep : backendStep (m, r, cs) (b, a) =
          (m || anyDisabledDiffServers b.Servers a.Servers, r,
            cs ++ serverDiffCommands b.Name b.Servers a.Servers) := by
        simp only [backendStep, hlen, bne_self_eq_false]
        simp only [Bool.false_eq_true, if_false]
        exact serversFold_aligned b.Name _ _ h1 m r cs
      rw [hstep, ih rest h2]
      simp [anyDisabledDiff, allSocketCommands, Bool.or_assoc]

/-- Characterization of the Differ on aligned snapshots: no restart, the
expected command list, no error. -/
theorem isBackendsModified_aligned (numServices : Nat)
    (cur cand : HAProxyBackendSlice)
    (halign : backendsAligned cand cur = true) (hn : cand.length = numServices) :
    isBackendsModified numServices cur cand =
      (anyDisabledDiff cand cur, false, allSocketCommands cand cur, none) := by
  have hlen := backendsAligned_length _ _ halign
  simp only [isBackendsModified, hn, bne_self_eq_false, Bool.false_eq_true, if_false,
    hlen.symm ▸ (beq_self_eq_true cand.length)]
  rw [hn] at hlen
  simp only [← hlen, beq_self_eq_true, if_pos rfl]
  rw [backendsFold_aligned cand cur halign false false []]
  simp

/-- A socket pass whose every consulted outcome is a lone-newline response
succeeds: every command is sent, the socket is closed, nil is returned. -/
theorem socketLoop_all_newline : ∀ (cmds : List String) (outs : List CmdOutcome),
    (∀ x ∈ outs, x = CmdOutcome.response "\n") → cmds.length ≤ outs.length →
    socketLoop cmds outs = (cmds.map Ev.sendCommand ++ [Ev.closeSocket], none) := by
  intro cmds
  induction cmds with
  | nil => intro outs _ _; simp [socketLoop]
  | cons c cs ih =>
    intro outs hall hlen
    cases outs with
    | nil => simp at hlen
    | cons o os =>
      have ho : o = CmdOutcome.response "\n" := hall o (List.mem_cons_self o os)
      subst ho
      simp only [socketLoop, beq_self_eq_true, if_pos rfl]
      rw [ih os (fun x hx => hall x (List.mem_cons_of_mem _ hx))
        (Nat.le_of_succ_le_succ (by simpa using hlen))]
      simp

theorem serversAligned_refl : ∀ svs : List HAProxyBackendServer,
    serversAligned svs svs = true := by
  intro svs
  induction svs with
  | nil => rfl
  | cons s ss ih => simp [serversAligned, serverAligned, ih]

theorem backendsAligned_refl : ∀ bs : List HAProxyBackend,
    backendsAligned bs bs = true := by
  intro bs
  induction bs with
  | nil => rfl
  | cons b rest ih => simp [backendsAligned, serversAligned_refl, ih]

theorem anyDisabledDiffServers_refl : ∀ svs : List HAProxyBackendServer,
    anyDisabledDiffServers svs svs = false := by
  intro svs
  induction svs with
  | nil => rfl
  | cons s ss ih => simp [anyDisabledDiffServers, ih]

theorem anyDisabledDiff_refl : ∀ bs : List HAProxyBackend,
    anyDisabledDiff bs bs = false := by
  intro bs
  induction bs with
  | nil => rfl
  | cons b rest ih => simp [anyDisabledDiff, anyDisabledDiffServers_refl, ih]

theorem serverDiffCommands_refl (bn : String) : ∀ svs : List HAProxyBackendServer,
    serverDiffCommands bn svs svs = [] := by
  intro svs
  induction svs with
  | nil => rfl
  | cons s ss ih => simp [serverDiffCommands, ih]

theorem allSocketCommands_refl : ∀ bs : List HAProxyBackend,
    allSocketCommands bs bs = [] := by
  intro bs
  induction bs with
  | nil => rfl
  | cons b rest ih => simp [allSocketCommands, serverDiffCommands_refl, ih]

theorem insertLE_length {α : Type} (le : α → α → Bool) (a : α) :
    ∀ l : List α, (insertLE le a l).length = l.length + 1 := by
  intro l
  induction l with
  | nil => rfl
  | cons b bs ih =>
    by_cases h : le a b = true
    · simp [insertLE, h]
    · simp only [insertLE]
      rw [if_neg h]
      simp [ih]

theorem sortLE_length {α : Type} (le : α → α → Bool) :
    ∀ l : List α, (sortLE le l).length = l.length := by
  intro l
  induction l with
  | nil => rfl
  | cons a rest ih => simp [sortLE, insertLE_length, ih]

/-- The Differ never reports the count-mismatch error when the candidate
backend count equals the service count. -/
theorem isBackendsModified_err_none (numServices : Nat)
    (cur newB : HAProxyBackendSlice) (h : newB.length = numServices) :
    (isBackendsModified numServices cur newB).2.2.2 = none := by
  simp only [isBackendsModified, h, bne_self_eq_false, Bool.false_eq_true, if_false]
  by_cases hc : numServices = cur.length
  · simp only [hc, beq_self_eq_true, if_pos rfl]
    rcases hf : (newB.zip cur).foldl backendStep (false, false, []) with ⟨m, r, cs⟩
    simp
  · have : (numServices == cur.length) = false := by
      simp [hc]
    simp [this]

/-- On a modified tick with no differ error, `Run` installs the candidate
snapshot at once and the trace starts with the state-file save (when a
state file is configured), whatever the config write, reload and socket
outcomes are. -/
theorem runTickWith_modified_shape (conf : SynapseHAProxyConfiguration) (numServices : Nat)
    (StateFile : String) (cur cand : HAProxyBackendSlice) (o : TickOracle)
    (r : Bool) (cs : List String)
    (hM : isBackendsModified numServices cur cand = (true, r, cs, none)) :
    ∃ tail, runTickWith conf numServices StateFile cur cand o =
      (cand, (if StateFile != "" then [Ev.saveState cand] else []) ++ tail) := by
  simp only [runTickWith, hM, if_true]
  rcases hW : SaveConfigurationRun conf cand o.configWriteOk with ⟨wEvs, we⟩
  cases we with
  | some e =>
    refine ⟨wEvs, ?_⟩
    simp [SaveStateRun]
  | none =>
    cases r with
    | true =>
      refine ⟨wEvs ++ (reloadHAProxyDaemon conf.DoReloads o.reloadOk).1, ?_⟩
      simp [SaveStateRun, List.append_assoc]
    | false =>
      by_cases hg : (conf.DoReloads && !conf.DoSocket) = true
      · refine ⟨wEvs ++ (reloadHAProxyDaemon conf.DoReloads o.reloadOk).1, ?_⟩
        simp [hg, SaveStateRun, List.append_assoc]
      · rcases hS : changeBackendsStateBySocket conf.DoSocket o.dialOk cs o.cmdOutcomes
          with ⟨sEvs, se⟩
        cases se with
        | some e2 =>
          refine ⟨wEvs ++ sEvs ++ (reloadHAProxyDaemon conf.DoReloads o.reloadOk).1, ?_⟩
          simp [hg, hS, SaveStateRun, List.append_assoc]
        | none =>
          refine ⟨wEvs ++ sEvs, ?_⟩
          simp [hg, hS, SaveStateRun, List.append_assoc]

/-! ## Claims -/

set_option maxRecDepth 8000 in
/-- Claim C1 (code bug): the claim states that with `do_socket` enabled, a
socket command answered by anything other than a lone newline makes the
socket pass fail and triggers a full reload in the same tick. The code
disagrees: at line 247 of `synapse_haproxy.go`, `n, err := conn.Read`
declares a loop-local `err`, so the `return err` of the response-mismatch
branch (line 257) returns nil; `Run` sees no error and never invokes the
fallback reload. Evaluated here at the failing input: one
`EnableDisableOnly` tick, all gates enabled, the single command answered by
"Unknown command\n" — the socket pass reports no error and the tick's trace
contains no reload, while a successful write precedes it. -/
theorem claim1_socket_mismatch_no_reload :
    (changeBackendsStateBySocket true true ["disable server web/a"]
        [CmdOutcome.response "Unknown command\n"]).2 = none
    ∧ Ev.execReload ∉ (runTickWith exampleConf 1 "statefile"
        [exampleBackend false] [exampleBackend true]
        ⟨true, true, true, [CmdOutcome.response "Unknown command\n"]⟩).2
    ∧ Ev.writeConfig (configFileContent exampleConf [exampleBackend true])
        ∈ (runTickWith exampleConf 1 "statefile"
        [exampleBackend false] [exampleBackend true]
        ⟨true, true, true, [CmdOutcome.response "Unknown command\n"]⟩).2 := by
  refine ⟨by decide, ?_, ?_⟩ <;> decide

set_option maxRecDepth 8000 in
/-- Claim C2 counterexample: with all gates enabled and a tick whose config
write fails, `Run` has already installed the candidate as the applied
snapshot (line 288) and written the state file (lines 289-291) before the
failing write — the applied snapshot IS updated and the state file is
written before any successful Effector pass, contradicting the claim. -/
theorem claim2_counterexample :
    (runTickWith exampleConf 1 "statefile" [] [exampleBackend true]
        ⟨false, true, true, []⟩).1 = [exampleBackend true]
    ∧ (runTickWith exampleConf 1 "statefile" [] [exampleBackend true]
        ⟨false, true, true, []⟩).2
      = [Ev.saveState [exampleBackend true],
         Ev.writeConfig (configFileContent exampleConf [exampleBackend true])]
    ∧ (SaveConfigurationRun exampleConf [exampleBackend true] false).2 ≠ none
    ∧ [exampleBackend true] ≠ ([] : HAProxyBackendSlice) := by
  refine ⟨by decide, by decide, by decide, by decide⟩

/-- Claim C2 as amended: on every Structural or EnableDisableOnly tick the
applied snapshot is updated to the candidate immediately, and the state
file (when configured) is written first, before the config write and any
reload — so an Effector write or reload failure leaves the new snapshot in
place and the next tick does not retry. -/
theorem claim2_amended_snapshot_updated_before_write
    (conf : SynapseHAProxyConfiguration) (numServices : Nat) (StateFile : String)
    (cur cand : HAProxyBackendSlice) (o : TickOracle)
    (herr : (isBackendsModified numServices cur cand).2.2.2 = none)
    (hmod : (isBackendsModified numServices cur cand).1 = true)
    (hsf : StateFile ≠ "") :
    (runTickWith conf numServices StateFile cur cand o).1 = cand
    ∧ (runTickWith conf numServices StateFile cur cand o).2.head?
        = some (Ev.saveState cand) := by
  rcases hM : isBackendsModified numServices cur cand with ⟨m, r, cs, e⟩
  rw [hM] at herr hmod
  obtain rfl : e = none := herr
  obtain rfl : m = true := hmod
  obtain ⟨tail, htail⟩ :=
    runTickWith_modified_shape conf numServices StateFile cur cand o r cs hM
  have hsf' : (StateFile != "") = true := by simpa [bne_iff_ne] using hsf
  rw [htail, hsf']
  simp

/-- Claim C3 counterexample: a watcher that has reported one child node
receives a session-expired event; afterwards the child watcher is cancelled
but the report map still holds the stale report, and the next report event
re-emits it — the reported set is NOT cleared to empty, contradicting the
claim. -/
theorem claim3_counterexample :
    (onSessionLoss exampleZkState).childWatchersLive = []
    ∧ (onSessionLoss exampleZkState).reports = [("/services/web/node1", "report1")]
    ∧ emittedReports (onSessionLoss exampleZkState) = ["report1"]
    ∧ (["report1"] : List String) ≠ [] := by
  refine ⟨rfl, rfl, rfl, by decide⟩

/-- Claim C3 as amended: on a session-expired or disconnected event the
watcher cancels and drains the root and child watches, but the reported set
is left unchanged — stale reports persist and are re-emitted by the next
report event until the root watch or a node-deletion updates them. -/
theorem claim3_amended_session_loss_keeps_reports (w : WatcherZookeeperState) :
    (onSessionLoss w).childWatchersLive = []
    ∧ (onSessionLoss w).rootWatchLive = false
    ∧ (onSessionLoss w).reports = w.reports
    ∧ emittedReports (onSessionLoss w) = emittedReports w := by
  simp [onSessionLoss, emittedReports]

/-- The socket pass never runs the reload command itself. -/
theorem socketLoop_no_reload : ∀ (cmds : List String) (outs : List CmdOutcome),
    Ev.execReload ∉ (socketLoop cmds outs).1 := by
  intro cmds
  induction cmds with
  | nil => intro outs; simp [socketLoop]
  | cons c cs ih =>
    intro outs
    cases outs with
    | nil => simp [socketLoop]
    | cons oc os =>
      cases oc with
      | writeFail => simp [socketLoop]
      | readFail => simp [socketLoop]
      | response s =>
        by_cases hs : (s == "\n") = true
        · have h := ih os
          rcases hrec : socketLoop cs os with ⟨evs, rr⟩
          rw [hrec] at h
          simp [socketLoop, hs, hrec]
          exact fun hmem => h hmem
        · have hs' : (s == "\n") = false := by
            simp only [Bool.not_eq_true] at hs
            exact hs
          simp [socketLoop, hs']

theorem changeBackendsStateBySocket_no_reload (ds dk : Bool) (cmds : List String)
    (outs : List CmdOutcome) :
    Ev.execReload ∉ (changeBackendsStateBySocket ds dk cmds outs).1 := by
  cases ds with
  | false => simp [changeBackendsStateBySocket]
  | true =>
    cases dk with
    | false => simp [changeBackendsStateBySocket]
    | true =>
      have h := socketLoop_no_reload cmds outs
      rcases hrec : socketLoop cmds outs with ⟨evs, rr⟩
      rw [hrec] at h
      simp [changeBackendsStateBySocket, hrec]
      exact fun hmem => h hmem

theorem saveConfigurationRun_no_reload (conf : SynapseHAProxyConfiguration)
    (backends : HAProxyBackendSlice) (ok : Bool) :
    Ev.execReload ∉ (SaveConfigurationRun conf backends ok).1 := by
  cases hw : conf.DoWrites <;> cases ok <;> simp [SaveConfigurationRun, hw]

/-- On an `EnableDisableOnly` tick (no restart required) with `do_socket`
enabled and every socket response a lone newline, the tick performs no
reload. -/
theorem runTickWith_socket_success_no_reload (conf : SynapseHAProxyConfiguration)
    (numServices : Nat) (StateFile : String) (cur cand : HAProxyBackendSlice)
    (o : TickOracle) (cs : List String)
    (hM : isBackendsModified numServices cur cand = (true, false, cs, none))
    (hsock : conf.DoSocket = true) (hdial : o.dialOk = true)
    (hresp : ∀ x ∈ o.cmdOutcomes, x = CmdOutcome.response "\n")
    (hlen : cs.length ≤ o.cmdOutcomes.length) :
    Ev.execReload ∉ (runTickWith conf numServices StateFile cur cand o).2 := by
  have hstate : Ev.execReload ∉ (if (StateFile != "") = true then SaveStateRun cand else []) := by
    split <;> simp [SaveStateRun]
  simp only [runTickWith, hM, if_true]
  rcases hW : SaveConfigurationRun conf cand o.configWriteOk with ⟨wEvs, we⟩
  have hwno : Ev.execReload ∉ wEvs := by
    have h := saveConfigurationRun_no_reload conf cand o.configWriteOk
    rw [hW] at h
    exact h
  cases we with
  | some e =>
    intro hmem
    rcases List.mem_append.mp hmem with h1 | h2
    · exact hstate h1
    · exact hwno h2
  | none =>
    have hgate : (conf.DoReloads && !conf.DoSocket) = false := by
      simp [hsock]
    have hcb : changeBackendsStateBySocket conf.DoSocket o.dialOk cs o.cmdOutcomes =
        (Ev.dialSocket :: (cs.map Ev.sendCommand ++ [Ev.closeSocket]), none) := by
      rw [hsock, hdial]
      simp only [changeBackendsStateBySocket, if_true]
      rw [socketLoop_all_newline cs o.cmdOutcomes hresp hlen]
    simp only [Bool.false_eq_true, if_false, hgate, hcb]
    intro hmem
    rcases List.mem_append.mp hmem with h12 | h3
    · rcases List.mem_append.mp h12 with h1 | h2
      · exact hstate h1
      · exact hwno h2
    · rcases List.mem_cons.mp h3 with h4 | h5
      · exact Ev.noConfusion h4
      · rcases List.mem_append.mp h5 with h6 | h7
        · rcases List.mem_map.mp h6 with ⟨x, _, hx⟩
          exact Ev.noConfusion hx
        · exact Ev.noConfusion (List.mem_singleton.mp h7)

/-- Claim C4: for an applied snapshot and a candidate of equal backend
count (equal to the service count), with per-backend servers identical and
in identical order on (name, host, port) and differing only in disabled
flags (at least one differing), the Differ classifies the tick as
enable/disable-only — modified, no restart, no error — and emits exactly
the ordered command list with one "disable server <backend>/<server>" or
"enable server <backend>/<server>" per differing server; and when
`do_socket` is enabled and the socket pass succeeds (dial ok, every
response a lone newline), no reload is performed in the tick. -/
theorem claim4_enable_disable_only (conf : SynapseHAProxyConfiguration)
    (numServices : Nat) (StateFile : String) (cur cand : HAProxyBackendSlice)
    (o : TickOracle)
    (halign : backendsAligned cand cur = true)
    (hn : cand.length = numServices)
    (hdiff : anyDisabledDiff cand cur = true)
    (hsock : conf.DoSocket = true)
    (hdial : o.dialOk = true)
    (hresp : ∀ x ∈ o.cmdOutcomes, x = CmdOutcome.response "\n")
    (hlen : (allSocketCommands cand cur).length ≤ o.cmdOutcomes.length) :
    isBackendsModified numServices cur cand
      = (true, false, allSocketCommands cand cur, none)
    ∧ Ev.execReload ∉ (runTickWith conf numServices StateFile cur cand o).2 := by
  have hM := isBackendsModified_aligned numServices cur cand halign hn
  rw [hdiff] at hM
  exact ⟨hM, runTickWith_socket_success_no_reload conf numServices StateFile cur cand o
    (allSocketCommands cand cur) hM hsock hdial hresp hlen⟩

set_option maxRecDepth 8000 in
/-- Witness for C4 at a concrete enable/disable-only tick: disabling the
single server of backend `web` yields the one command
"disable server web/a" and a reload-free trace. -/
theorem claim4_witness :
    isBackendsModified 1 [exampleBackend false] [exampleBackend true]
      = (true, false, allSocketCommands [exampleBackend true] [exampleBackend false], none)
    ∧ Ev.execReload ∉ (runTickWith exampleConf 1 "statefile"
        [exampleBackend false] [exampleBackend true]
        ⟨true, true, true, [CmdOutcome.response "\n"]⟩).2 :=
  claim4_enable_disable_only exampleConf 1 "statefile" [exampleBackend false]
    [exampleBackend true] ⟨true, true, true, [CmdOutcome.response "\n"]⟩
    (by decide) (by decide) (by decide) (by decide) (by decide) (by decide) (by decide)

/-- Claim C5: the Assembler followed by config serialization is a
deterministic function — two runs over the same discovery outputs (the
`DiscoveredHosts` of each service) and the same configuration produce
byte-identical config-file contents. The embedding records that
`getAllBackends` and `SaveConfiguration` consume only slices in slice
order plus a deterministic sort, with no other input. -/
theorem claim5_determinism (confA confB : SynapseHAProxyConfiguration)
    (servicesA servicesB : List SynapseService)
    (hs : servicesA = servicesB) (hc : confA = confB) :
    configFileContent confA (getAllBackends servicesA)
      = configFileContent confB (getAllBackends servicesB) := by
  rw [hs, hc]

/-- Witness for C5 at a concrete service list. -/
theorem claim5_witness :
    configFileContent exampleConf (getAllBackends [exampleService])
      = configFileContent exampleConf (getAllBackends [exampleService]) :=
  claim5_determinism exampleConf exampleConf [exampleService] [exampleService] rfl rfl

/-- Claim C6: at startup the persisted state file is adopted as the applied
snapshot only while its modification time is within 2000ms of now; when
`mtime + 2000ms` lies strictly before `now` the file is ignored and the
applied snapshot stays empty; within the TTL a parseable file is adopted
verbatim. -/
theorem claim6_state_ttl (mtime nowOld nowFresh : Nat)
    (content : Option HAProxyBackendSlice) (s : HAProxyBackendSlice)
    (hold : mtime + 2000 < nowOld) (hfresh : ¬ mtime + 2000 < nowFresh) :
    LoadState [] (some mtime) nowOld content = ([], none)
    ∧ LoadState [] (some mtime) nowFresh (some s) = (s, none) := by
  constructor
  · simp [LoadState, hold]
  · simp [LoadState, hfresh]

/-- Witness for C6: a file written at time 0 is ignored at 2001ms and
adopted at 2000ms. -/
theorem claim6_witness :
    LoadState [] (some 0) 2001 (some [exampleBackend false]) = ([], none)
    ∧ LoadState [] (some 0) 2000 (some [exampleBackend false])
      = ([exampleBackend false], none) :=
  claim6_state_ttl 0 2001 2000 (some [exampleBackend false]) [exampleBackend false]
    (by decide) (by decide)

/-- Claim C7: when the candidate backend count differs from the configured
service count, the Differ returns its count-mismatch error and the tick is
skipped: the applied snapshot is unchanged and the trace is empty — no
state-file write, no config write, no reload, no socket command. -/
theorem claim7_count_mismatch_skips_tick (conf : SynapseHAProxyConfiguration)
    (numServices : Nat) (StateFile : String) (cur cand : HAProxyBackendSlice)
    (o : TickOracle) (h : cand.length ≠ numServices) :
    ((isBackendsModified numServices cur cand).2.2.2).isSome = true
    ∧ runTickWith conf numServices StateFile cur cand o = (cur, []) := by
  have hb : (cand.length != numServices) = true := by simpa [bne_iff_ne] using h
  constructor
  · simp [isBackendsModified, hb]
  · simp [runTickWith, isBackendsModified, hb]

/-- Witness for C7: one candidate backend against two configured services. -/
theorem claim7_witness :
    ((isBackendsModified 2 [] [exampleBackend false]).2.2.2).isSome = true
    ∧ runTickWith exampleConf 2 "statefile" [] [exampleBackend false]
        ⟨true, true, true, []⟩ = ([], []) :=
  claim7_count_mismatch_skips_tick exampleConf 2 "statefile" [] [exampleBackend false]
    ⟨true, true, true, []⟩ (by decide)

/-- Claim C8: when the candidate snapshot equals the applied snapshot (and
the backend count matches the service count), the Differ reports no
modification, no restart, no commands and no error, and the tick performs
no I/O at all: the state and trace of the tick are unchanged and empty. -/
theorem claim8_no_change_no_io (conf : SynapseHAProxyConfiguration) (numServices : Nat)
    (StateFile : String) (cur : HAProxyBackendSlice) (o : TickOracle)
    (h : cur.length = numServices) :
    isBackendsModified numServices cur cur = (false, false, [], none)
    ∧ runTickWith conf numServices StateFile cur cur o = (cur, []) := by
  have hM := isBackendsModified_aligned numServices cur cur (backendsAligned_refl cur) h
  rw [anyDisabledDiff_refl, allSocketCommands_refl] at hM
  refine ⟨hM, ?_⟩
  simp [runTickWith, hM]

/-- Witness for C8 at a concrete unchanged snapshot. -/
theorem claim8_witness :
    isBackendsModified 1 [exampleBackend false] [exampleBackend false]
      = (false, false, [], none)
    ∧ runTickWith exampleConf 1 "statefile" [exampleBackend false] [exampleBackend false]
        ⟨true, true, true, []⟩ = ([exampleBackend false], []) :=
  claim8_no_change_no_io exampleConf 1 "statefile" [exampleBackend false]
    ⟨true, true, true, []⟩ (by decide)

/-- Claim C10: the Assembler builds exactly one backend per configured
service, so the candidate backend count always equals the service count and
the Differ's count-mismatch error branch is unreachable from the reconciler
loop. -/
theorem claim10_assembler_count (services : List SynapseService)
    (cur : HAProxyBackendSlice) :
    (getAllBackends services).length = services.length
    ∧ (isBackendsModified services.length cur (getAllBackends services)).2.2.2 = none := by
  have hlen : (getAllBackends services).length = services.length := by
    simp [getAllBackends, sortLE_length]
  exact ⟨hlen, isBackendsModified_err_none services.length cur (getAllBackends services) hlen⟩

theorem serversWeightEquiv_length : ∀ sv1 sv2 : List HAProxyBackendServer,
    serversWeightEquiv sv1 sv2 = true → sv1.length = sv2.length := by
  intro sv1
  induction sv1 with
  | nil =>
    intro sv2 h
    cases sv2 with
    | nil => rfl
    | cons t ts => simp [serversWeightEquiv] at h
  | cons s ss ih =>
    intro sv2 h
    cases sv2 with
    | nil => simp [serversWeightEquiv] at h
    | cons t ts =>
      simp only [serversWeightEquiv, Bool.and_eq_true] at h
      simp [ih ts h.2]

theorem backendsWeightEquiv_length : ∀ c1 c2 : List HAProxyBackend,
    backendsWeightEquiv c1 c2 = true → c1.length = c2.length := by
  intro c1
  induction c1 with
  | nil =>
    intro c2 h
    cases c2 with
    | nil => rfl
    | cons a rest => simp [backendsWeightEquiv] at h
  | cons b bs ih =>
    intro c2 h
    cases c2 with
    | nil => simp [backendsWeightEquiv] at h
    | cons a rest =>
      simp only [backendsWeightEquiv, Bool.and_eq_true] at h
      simp [ih rest h.2]

theorem serverConfigLine_weightEquiv (opts : String) (s t : HAProxyBackendServer)
    (h : serverWeightEquiv s t = true) :
    serverConfigLine opts s = serverConfigLine opts t := by
  cases s
  cases t
  simp only [serverWeightEquiv, Bool.and_eq_true, beq_iff_eq] at h
  obtain ⟨⟨⟨⟨h1, h2⟩, h3⟩, h4⟩, h5⟩ := h
  simp_all [serverConfigLine]

theorem serversMap_configLine_weightEquiv (opts : String) :
    ∀ sv1 sv2 : List HAProxyBackendServer, serversWeightEquiv sv1 sv2 = true →
    sv1.map (serverConfigLine opts) = sv2.map (serverConfigLine opts) := by
  intro sv1
  induction sv1 with
  | nil =>
    intro sv2 h
    cases sv2 with
    | nil => rfl
    | cons t ts => simp [serversWeightEquiv] at h
  | cons s ss ih =>
    intro sv2 h
    cases sv2 with
    | nil => simp [serversWeightEquiv] at h
    | cons t ts =>
      simp only [serversWeightEquiv, Bool.and_eq_true] at h
      simp only [List.map_cons]
      rw [serverConfigLine_weightEquiv opts s t h.1, ih ts h.2]

theorem backendConfigSection_weightEquiv (b a : HAProxyBackend)
    (h : backendWeightEquiv b a = true) :
    backendConfigSection b = backendConfigSection a := by
  simp only [backendWeightEquiv, Bool.and_eq_true, beq_iff_eq] at h
  obtain ⟨⟨⟨⟨h1, h2⟩, h3⟩, h4⟩, h5⟩ := h
  simp only [backendConfigSection, h1, h2, h3, h4,
    serversMap_configLine_weightEquiv a.ServerOptions b.Servers a.Servers h5]

theorem backendsMap_section_weightEquiv : ∀ c1 c2 : List HAProxyBackend,
    backendsWeightEquiv c1 c2 = true →
    c1.map backendConfigSection = c2.map backendConfigSection := by
  intro c1
  induction c1 with
  | nil =>
    intro c2 h
    cases c2 with
    | nil => rfl
    | cons a rest => simp [backendsWeightEquiv] at h
  | cons b bs ih =>
    intro c2 h
    cases c2 with
    | nil => simp [backendsWeightEquiv] at h
    | cons a rest =>
      simp only [backendsWeightEquiv, Bool.and_eq_true] at h
      simp only [List.map_cons]
      rw [backendConfigSection_weightEquiv b a h.1, ih rest h.2]

theorem configFileContent_weightEquiv (conf : SynapseHAProxyConfiguration)
    (c1 c2 : HAProxyBackendSlice) (h : backendsWeightEquiv c1 c2 = true) :
    configFileContent conf c1 = configFileContent conf c2 := by
  simp only [configFileContent, backendsMap_section_weightEquiv c1 c2 h]

theorem serverStep_weightEquiv (bn : String) (acc : Bool × Bool × List String)
    (s1 s2 t : HAProxyBackendServer) (h : serverWeightEquiv s1 s2 = true) :
    serverStep bn acc (s1, t) = serverStep bn acc (s2, t) := by
  cases s1
  cases s2
  simp only [serverWeightEquiv, Bool.and_eq_true, beq_iff_eq] at h
  obtain ⟨⟨⟨⟨h1, h2⟩, h3⟩, h4⟩, h5⟩ := h
  simp_all [serverStep, serverAligned]

theorem serversFold_weightEquiv (bn : String) :
    ∀ (sv1 sv2 tvs : List HAProxyBackendServer) (acc : Bool × Bool × List String),
    serversWeightEquiv sv1 sv2 = true →
    (sv1.zip tvs).foldl (serverStep bn) acc = (sv2.zip tvs).foldl (serverStep bn) acc := by
  intro sv1
  induction sv1 with
  | nil =>
    intro sv2 tvs acc h
    cases sv2 with
    | nil => rfl
    | cons t ts => simp [serversWeightEquiv] at h
  | cons s ss ih =>
    intro sv2 tvs acc h
    cases sv2 with
    | nil => simp [serversWeightEquiv] at h
    | cons s2 ss2 =>
      cases tvs with
      | nil => simp
      | cons t ts =>
        simp only [serversWeightEquiv, Bool.and_eq_true] at h
        simp only [List.zip_cons_cons, List.foldl_cons]
        rw [serverStep_weightEquiv bn acc s s2 t h.1]
        exact ih ss2 ts _ h.2

theorem backendStep_weightEquiv (acc : Bool × Bool × List String)
    (b1 b2 a : HAProxyBackend) (h : backendWeightEquiv b1 b2 = true) :
    backendStep acc (b1, a) = backendStep acc (b2, a) := by
  simp only [backendWeightEquiv, Bool.and_eq_true, beq_iff_eq] at h
  obtain ⟨⟨⟨⟨h1, h2⟩, h3⟩, h4⟩, h5⟩ := h
  have hlen : b1.Servers.length = b2.Servers.length := serversWeightEquiv_length _ _ h5
  simp only [backendStep, hlen, h1]
  by_cases hc : (b2.Servers.length != a.Servers.length) = true
  · simp [hc]
  · have hc' : (b2.Servers.length != a.Servers.length) = false := by
      simp only [Bool.not_eq_true] at hc
      exact hc
    simp only [hc', Bool.false_eq_true, if_false]
    exact serversFold_weightEquiv b2.Name b1.Servers b2.Servers a.Servers acc h5

theorem backendsFold_weightEquiv : ∀ (c1 c2 cur : List HAProxyBackend)
    (acc : Bool × Bool × List String), backendsWeightEquiv c1 c2 = true →
    (c1.zip cur).foldl backendStep acc = (c2.zip cur).foldl backendStep acc := by
  intro c1
  induction c1 with
  | nil =>
    intro c2 cur acc h
    cases c2 with
    | nil => rfl
    | cons a rest => simp [backendsWeightEquiv] at h
  | cons b bs ih =>
    intro c2 cur acc h
    cases c2 with
    | nil => simp [backendsWeightEquiv] at h
    | cons b2 bs2 =>
      cases cur with
      | nil => simp
      | cons a rest =>
        simp only [backendsWeightEquiv, Bool.and_eq_true] at h
        simp only [List.zip_cons_cons, List.foldl_cons]
        rw [backendStep_weightEquiv acc b b2 a h.1]
        exact ih bs2 rest _ h.2

theorem isBackendsModified_weightEquiv (numServices : Nat) (cur : HAProxyBackendSlice)
    (c1 c2 : HAProxyBackendSlice) (h : backendsWeightEquiv c1 c2 = true) :
    isBackendsModified numServices cur c1 = isBackendsModified numServices cur c2 := by
  have hlen := backendsWeightEquiv_length c1 c2 h
  simp only [isBackendsModified, hlen]
  by_cases h1 : (c2.length != numServices) = true
  · simp [h1]
  · have h1' : (c2.length != numServices) = false := by
      simp only [Bool.not_eq_true] at h1
      exact h1
    simp only [h1', Bool.false_eq_true, if_false]
    by_cases h2 : (c2.length == cur.length) = true
    · simp only [h2, if_true]
      rw [backendsFold_weightEquiv c1 c2 cur (false, false, []) h]
    · have h2' : (c2.length == cur.length) = false := by
        simp only [Bool.not_eq_true] at h2
        exact h2
      simp [h2']

/-- Claim C9: the server `Weight` field is inert — for any two candidate
snapshots agreeing on every server's name, host, port, disabled flag and
per-server options (and on the backend-level fields) but differing only in
weights, the Differ returns identical classifications, commands and errors
against any applied snapshot, and the serialized configuration files are
byte-identical: weight is never written to the config file. -/
theorem claim9_weight_inert (conf : SynapseHAProxyConfiguration) (numServices : Nat)
    (cur c1 c2 : HAProxyBackendSlice) (h : backendsWeightEquiv c1 c2 = true) :
    isBackendsModified numServices cur c1 = isBackendsModified numServices cur c2
    ∧ configFileContent conf c1 = configFileContent conf c2 :=
  ⟨isBackendsModified_weightEquiv numServices cur c1 c2 h,
   configFileContent_weightEquiv conf c1 c2 h⟩

set_option maxRecDepth 8000 in
/-- Witness for C9: weights 0 and 7 on the same server. -/
theorem claim9_witness :
    isBackendsModified 1 [exampleBackend false] [exampleBackendWeight 0]
      = isBackendsModified 1 [exampleBackend false] [exampleBackendWeight 7]
    ∧ configFileContent exampleConf [exampleBackendWeight 0]
      = configFileContent exampleConf [exampleBackendWeight 7] :=
  claim9_weight_inert exampleConf 1 [exampleBackend false]
    [exampleBackendWeight 0] [exampleBackendWeight 7] (by decide)

set_option maxRecDepth 8000 in
/-- Witness for the amended C2 at a concrete failing-write tick. -/
theorem claim2_amended_witness :
    (runTickWith exampleConf 1 "statefile" [] [exampleBackend true]
        ⟨false, true, true, []⟩).1 = [exampleBackend true]
    ∧ (runTickWith exampleConf 1 "statefile" [] [exampleBackend true]
        ⟨false, true, true, []⟩).2.head? = some (Ev.saveState [exampleBackend true]) :=
  claim2_amended_snapshot_updated_before_write exampleConf 1 "statefile" []
    [exampleBackend true] ⟨false, true, true, []⟩ (by decide) (by decide) (by decide)

end GoSynapse
